import Mathlib

/-
  Verification development for the Repositorio-Semantico repository
  (aviation-rag-system + ICA_Extractor).

  Shallow embedding of the data model and the operations referenced by the
  claims: calendar dates, the article chunker, the temporal extractor's
  pattern matching, the vector-store search/upsert adapters, the version
  manager, the RAG pipeline and the ICA filename metadata consumption.
  Each definition mirrors a function of the source tree; the theorems at the
  end settle the claims.
-/

/-! ## Calendar dates

The source passes dates around as ISO `YYYY-MM-DD` strings and compares them
chronologically (Qdrant `DatetimeRange`); `temporal_extractor.py` does real
calendar arithmetic via `datetime + timedelta(days=...)`.  We model a date as
a year/month/day triple with chronological (lexicographic) order and exact
Gregorian day stepping. -/

structure Date where
  year : Nat
  month : Nat
  day : Nat
deriving DecidableEq

/-- Chronological order on dates, as a Boolean (mirrors comparing ISO date
strings / datetimes). -/
def Date.ble (a b : Date) : Bool :=
  if a.year ≠ b.year then a.year < b.year
  else if a.month ≠ b.month then a.month < b.month
  else a.day ≤ b.day

/-- Gregorian leap-year rule (as in Python's `datetime`). -/
def Date.isLeap (y : Nat) : Bool :=
  y % 4 == 0 && (y % 100 != 0 || y % 400 == 0)

def Date.daysInMonth (y m : Nat) : Nat :=
  if m == 2 then (if Date.isLeap y then 29 else 28)
  else if m == 4 || m == 6 || m == 9 || m == 11 then 30
  else 31

/-- The day after a given date. -/
def Date.next (d : Date) : Date :=
  if d.day < Date.daysInMonth d.year d.month then ⟨d.year, d.month, d.day + 1⟩
  else if d.month < 12 then ⟨d.year, d.month + 1, 1⟩
  else ⟨d.year + 1, 1, 1⟩

/-- `d + n` days; mirrors `datetime.fromisoformat(s) + timedelta(days=n)` in
`TemporalExtractor._add_days_to_date`. -/
def Date.addDays (d : Date) (n : Nat) : Date :=
  Nat.rec d (fun _ acc => Date.next acc) n

/-! ## Payloads and points

`spec.md` models the dynamic chunk payload dictionaries of the source as a
fixed struct; the fields below are the ones the source reads or writes
(`lexml_parser.py`, `chunking.py`, `versioning.py`, `qdrant_manager.py`). -/

structure Payload where
  regulation_id : String
  status : String
  version : Option String := none
  effective_date : Option Date := none
  expiry_date : Option Date := none
  superseded_by_version : Option String := none
  supersedes_version : Option String := none
  text : String := ""
  chunk_index : Option Nat := none
deriving DecidableEq

/-- A vector-store point: `{id, vector, payload}` as assembled in
`IngestionPipeline.ingest_lexml`. -/
structure Point where
  id : String
  vector : List Rat := []
  payload : Payload
deriving DecidableEq

/-! ## Chunking (`pipeline/chunking.py`)

`ArticleChunker.chunk` estimates tokens by whitespace word count, splits
oversized articles on blank-line paragraph boundaries and greedily packs
paragraphs.  The source stores `self.overlap` (config `CHUNK_OVERLAP`) but
the loop never reads it: a new chunk starts with just the next paragraph. -/

namespace config

def CHUNK_MAX_TOKENS : Nat := 512
def CHUNK_OVERLAP : Nat := 50
def DEFAULT_EFFECTIVE_DAYS : Nat := 90
def SEARCH_TOP_K : Nat := 5
def SEARCH_SCORE_THRESHOLD : Rat := mkRat 7 10

end config

/-- Whitespace in the sense of Python's `str.split()` / `\s` (ASCII range). -/
def isSpaceChar (c : Char) : Bool :=
  c == ' ' || c == '\t' || c == '\n' || c == '\r' || c == '\x0b' || c == '\x0c'

/-- Splitting a character list at every character satisfying the predicate,
keeping empty pieces (the semantics of `str.split(sep)` for a single
separator; structural recursion so that concrete inputs evaluate). -/
def splitByAux (p : Char → Bool) : List Char → List Char → List (List Char)
  | [], acc => [acc.reverse]
  | c :: cs, acc =>
      if p c then acc.reverse :: splitByAux p cs [] else splitByAux p cs (c :: acc)

/-- `len(text.split())`: number of maximal nonempty whitespace-separated
words. -/
def estimatedTokens (text : String) : Nat :=
  ((splitByAux isSpaceChar text.data []).filter (fun w => w ≠ [])).length

/-- `text.split('\n\n')`: split on blank lines (leftmost, non-overlapping). -/
def splitParagraphsAux : List Char → List Char → List String
  | [], acc => [String.mk acc.reverse]
  | '\n' :: '\n' :: cs, acc => String.mk acc.reverse :: splitParagraphsAux cs []
  | c :: cs, acc => splitParagraphsAux cs (c :: acc)

def splitParagraphs (text : String) : List String :=
  splitParagraphsAux text.data []

/-- `'\n\n'.join(parts)`. -/
def joinParagraphs : List String → String
  | [] => ""
  | [x] => x
  | x :: xs => x ++ "\n\n" ++ joinParagraphs xs

namespace ArticleChunker

/-- `ArticleChunker._create_chunk`: copy the article, replacing `text`,
`chunk_index` and `regulation_id`. -/
def create_chunk (article : Payload) (text : String) (chunkIdx : Nat) : Payload :=
  { article with
    text := text
    chunk_index := some chunkIdx
    regulation_id := article.regulation_id ++ "-chunk-" ++ toString chunkIdx }

/-- The paragraph-packing loop of `ArticleChunker.chunk`, with state
(chunks, current_chunk, current_size) made explicit. -/
def chunkLoop (article : Payload) (maxTokens : Nat) :
    List String → List Payload → List String → Nat → List Payload
  | [], chunks, currentChunk, _ =>
      if currentChunk ≠ [] then
        chunks ++ [create_chunk article (joinParagraphs currentChunk) chunks.length]
      else chunks
  | para :: rest, chunks, currentChunk, currentSize =>
      let paraSize := estimatedTokens para
      if currentSize + paraSize > maxTokens ∧ currentChunk ≠ [] then
        let c := create_chunk article (joinParagraphs currentChunk) chunks.length
        chunkLoop article maxTokens rest (chunks ++ [c]) [para] paraSize
      else
        chunkLoop article maxTokens rest chunks (currentChunk ++ [para]) (currentSize + paraSize)

/-- `ArticleChunker.chunk`.  The `overlap` argument mirrors the constructor
parameter `overlap` (config `CHUNK_OVERLAP`): the source stores it on the
instance but the chunking loop never uses it. -/
def chunk (maxTokens overlap : Nat) (article : Payload) : List Payload :=
  if estimatedTokens article.text ≤ maxTokens then [article]
  else chunkLoop article maxTokens (splitParagraphs article.text) [] [] 0

end ArticleChunker

/-- Spec-side check (refinement target, from the spec's words): each chunk
after the first begins with an overlap window equal to the last `ov` tokens
of its predecessor.  Tokens are whitespace words, as in the chunker's own
token estimate. -/
def wordsOf (s : String) : List (List Char) :=
  (splitByAux isSpaceChar s.data []).filter (fun w => w ≠ [])

def beginsWithOverlapOf (ov : Nat) (prev next : String) : Bool :=
  (wordsOf next).take ov == ((wordsOf prev).reverse.take ov).reverse

def chunkOverlapSpecHolds (ov : Nat) : List Payload → Bool
  | [] => true
  | [_] => true
  | a :: b :: rest =>
      beginsWithOverlapOf ov a.text b.text && chunkOverlapSpecHolds ov (b :: rest)

/-! ## Regex matching for the temporal extractor (`parsers/temporal_extractor.py`)

The extractor's regexes are embedded as total matchers over `List Char`.
Each Python pattern becomes a pipeline of combinators producing the list of
candidate "rest of input" suffixes in the regex engine's backtracking
priority order (alternatives left to right, greedy option first); a pattern
matches at a position iff some candidate lets the remainder of the pattern
succeed.  `re.search` semantics (leftmost match) is `searchPos`, which tries
every start position left to right. -/

/-- Case folding as under `re.IGNORECASE` (ASCII plus the accented letters
appearing in the patterns). -/
def lowerChar (c : Char) : Char :=
  if c == 'Á' then 'á' else if c == 'Â' then 'â' else if c == 'Ã' then 'ã'
  else if c == 'À' then 'à' else if c == 'Ç' then 'ç' else if c == 'É' then 'é'
  else if c == 'Ê' then 'ê' else if c == 'Í' then 'í' else if c == 'Ó' then 'ó'
  else if c == 'Ô' then 'ô' else if c == 'Õ' then 'õ' else if c == 'Ú' then 'ú'
  else c.toLower

/-- Match a literal (lowercase) pattern case-insensitively; return the rest. -/
def litCI : List Char → List Char → Option (List Char)
  | [], s => some s
  | _ :: _, [] => none
  | p :: ps, c :: cs => if lowerChar c == p then litCI ps cs else none

/-- `\s+` (greedy; none of the patterns continue with whitespace, so maximal
munch is faithful). -/
def wsOne (s : List Char) : Option (List Char) :=
  match s with
  | c :: cs => if isSpaceChar c then some (cs.dropWhile isSpaceChar) else none
  | [] => none

/-- Candidate-list combinators. -/
def litC (pat : String) (cs : List (List Char)) : List (List Char) :=
  cs.filterMap (litCI pat.data)

def wsP (cs : List (List Char)) : List (List Char) :=
  cs.filterMap wsOne

def wsSC (cs : List (List Char)) : List (List Char) :=
  cs.map (fun s => s.dropWhile isSpaceChar)

def altC (pats : List String) (cs : List (List Char)) : List (List Char) :=
  cs.flatMap (fun s => pats.filterMap (fun p => litCI p.data s))

def optAltC (pats : List String) (cs : List (List Char)) : List (List Char) :=
  cs.flatMap (fun s => (pats.filterMap (fun p => litCI p.data s)) ++ [s])

def optSeqC (f : List Char → Option (List Char)) (cs : List (List Char)) :
    List (List Char) :=
  cs.flatMap (fun s => match f s with | some r => [r, s] | none => [s])

/-- `(\d+)` (at least one digit, greedy). -/
def digitsPlusC (cs : List (List Char)) : List (List Char) :=
  cs.filterMap (fun s =>
    let ds := s.takeWhile Char.isDigit
    if ds.length == 0 then none else some (s.drop ds.length))

/-- `(?:sua\s+)` — the sequence inside the optional group of two patterns. -/
def seqSua (s : List Char) : Option (List Char) :=
  (litCI "sua".data s).bind wsOne

/-- `(?:a\s+partir\s+de)` — the optional group of pattern 3. -/
def seqAPartirDe (s : List Char) : Option (List Char) :=
  (litCI "a".data s).bind fun s1 =>
  (wsOne s1).bind fun s2 =>
  (litCI "partir".data s2).bind fun s3 =>
  (wsOne s3).bind fun s4 =>
  litCI "de".data s4

def digitsVal (ds : List Char) : Nat :=
  ds.foldl (fun n c => n * 10 + (c.toNat - 48)) 0

/-- `\d{lo,hi}` followed by nothing committed: greedily take up to `hi`
digits, fail below `lo`; return the numeric value and the rest. -/
def digitsTake (lo hi : Nat) (s : List Char) : Option (Nat × List Char) :=
  let ds := (s.takeWhile Char.isDigit).take hi
  if ds.length < lo then none else some (digitsVal ds, s.drop ds.length)

/-- The date pattern: one or two digits, a slash-or-dash separator, one or
two digits, a separator, and two to four digits, at a position,
returning the three numeric groups. -/
def dateTripleAt (s : List Char) : Option (Nat × Nat × Nat) :=
  (digitsTake 1 2 s).bind fun (a, s1) =>
  match s1 with
  | c :: s2 =>
      if c == '/' || c == '-' then
        (digitsTake 1 2 s2).bind fun (b, s3) =>
        match s3 with
        | c2 :: s4 =>
            if c2 == '/' || c2 == '-' then
              (digitsTake 2 4 s4).map (fun p => (a, b, p.1))
            else none
        | [] => none
      else none
  | [] => none

def firstSome (f : α → Option β) : List α → Option β
  | [] => none
  | a :: rest => match f a with | some b => some b | none => firstSome f rest

/-- `re.search`: try the position matcher at every start, left to right. -/
def searchPos (f : List Char → Option α) : List Char → Option α
  | [] => f []
  | c :: cs => match f (c :: cs) with | some r => some r | none => searchPos f cs

namespace TemporalExtractor

/-- Pattern 1: `entra(?:rá)?\s+em\s+vigor\s+(?:em|na data de|a partir de)?\s*(date)`. -/
def effPattern1At (s : List Char) : Option (Nat × Nat × Nat) :=
  firstSome dateTripleAt
    ([s] |> litC "entra" |> optAltC ["rá"] |> wsP |> litC "em" |> wsP
         |> litC "vigor" |> wsP
         |> optAltC ["em", "na data de", "a partir de"] |> wsSC)

/-- Pattern 2: `vigência\s+a\s+partir\s+de\s+(date)`. -/
def effPattern2At (s : List Char) : Option (Nat × Nat × Nat) :=
  firstSome dateTripleAt
    ([s] |> litC "vigência" |> wsP |> litC "a" |> wsP |> litC "partir" |> wsP
         |> litC "de" |> wsP)

/-- Pattern 3: `produzirá\s+efeitos?\s+(?:a\s+partir\s+de)?\s*(date)`. -/
def effPattern3At (s : List Char) : Option (Nat × Nat × Nat) :=
  firstSome dateTripleAt
    ([s] |> litC "produzirá" |> wsP |> litC "efeito" |> optAltC ["s"] |> wsP
         |> optSeqC seqAPartirDe |> wsSC)

/-- Pattern 4: `passa\s+a\s+vigorar\s+(?:em|na data de)?\s*(date)`. -/
def effPattern4At (s : List Char) : Option (Nat × Nat × Nat) :=
  firstSome dateTripleAt
    ([s] |> litC "passa" |> wsP |> litC "a" |> wsP |> litC "vigorar" |> wsP
         |> optAltC ["em", "na data de"] |> wsSC)

/-- Pattern 5 (no capture group): `(?:após|da)\s+(?:sua\s+)?publicação`. -/
def effPattern5At (s : List Char) : Option (List Char) :=
  ([s] |> altC ["após", "da"] |> wsP |> optSeqC seqSua |> litC "publicação").head?

/-- Revocation pattern 1:
`revoga(?:da)?\s+(?:a|o)\s+(Lei|Decreto|Resolução|Portaria)\s+n?º?\s*(\d+)`. -/
def revPattern1At (s : List Char) : Option (List Char) :=
  ([s] |> litC "revoga" |> optAltC ["da"] |> wsP |> altC ["a", "o"] |> wsP
       |> altC ["lei", "decreto", "resolução", "portaria"] |> wsP
       |> optAltC ["n"] |> optAltC ["º"] |> wsSC |> digitsPlusC).head?

/-- Revocation pattern 2: `(?:fica|são)\s+revogado?s?`. -/
def revPattern2At (s : List Char) : Option (List Char) :=
  ([s] |> altC ["fica", "são"] |> wsP |> litC "revogad"
       |> optAltC ["o"] |> optAltC ["s"]).head?

/-- Revocation pattern 3: `perde(?:rá)?\s+(?:sua\s+)?vigência`. -/
def revPattern3At (s : List Char) : Option (List Char) :=
  ([s] |> litC "perde" |> optAltC ["rá"] |> wsP |> optSeqC seqSua
       |> litC "vigência").head?

/-- Revocation pattern 4: `deixa(?:rá)?\s+de\s+vigorar`. -/
def revPattern4At (s : List Char) : Option (List Char) :=
  ([s] |> litC "deixa" |> optAltC ["rá"] |> wsP |> litC "de" |> wsP
       |> litC "vigorar").head?

/-- Two-digit years, as `dateutil` resolves them relative to the current
century (no claim exercises this path). -/
def resolveYear (y : Nat) : Nat :=
  if y < 100 then (if y < 75 then 2000 + y else 1900 + y) else y

def validYMD (y m d : Nat) : Bool :=
  1 ≤ m && m ≤ 12 && 1 ≤ d && d ≤ Date.daysInMonth y m

/-- `TemporalExtractor._parse_date` on a `d/m/y` triple:
`dateutil.parser.parse(date_str, dayfirst=True)`, which falls back to the
month-first reading when the day-first one is invalid, and returns `None`
(an exception in the source) when neither is a real date. -/
def parseDMY : Nat × Nat × Nat → Option Date := fun t =>
  let a := t.1
  let b := t.2.1
  let y := resolveYear t.2.2
  if validYMD y b a then some ⟨y, b, a⟩
  else if validYMD y a b then some ⟨y, a, b⟩
  else none

/-- The dated patterns 1–4 of `effective_patterns`, tried in source order;
a pattern whose first match carries an unparseable date yields nothing and
the loop moves to the next pattern. -/
def effective_date_from_patterns (s : List Char) : Option Date :=
  [effPattern1At, effPattern2At, effPattern3At, effPattern4At].foldl
    (fun acc f =>
      match acc with
      | some d => some d
      | none => (searchPos f s).bind parseDMY) none

/-- `TemporalExtractor._extract_effective_date`. -/
def extract_effective_date (text : String) (publicationDate : Option Date) :
    Option Date :=
  match effective_date_from_patterns text.data with
  | some d => some d
  | none =>
      if (searchPos effPattern5At text.data).isSome then
        publicationDate.map (fun p => p.addDays config.DEFAULT_EFFECTIVE_DAYS)
      else none

/-- `TemporalExtractor._check_revocation`. -/
def check_revocation (text : String) : Bool :=
  [revPattern1At, revPattern2At, revPattern3At, revPattern4At].any
    (fun f => (searchPos f text.data).isSome)

/-- `TemporalExtractor._extract_revocation_date`: after the first match of a
revocation pattern, look for a date in the following 100 characters. -/
def extract_revocation_date (text : String) : Option Date :=
  [revPattern1At, revPattern2At, revPattern3At, revPattern4At].foldl
    (fun acc f =>
      match acc with
      | some d => some d
      | none =>
          (searchPos f text.data).bind fun rest =>
          (searchPos dateTripleAt (rest.take 100)).bind parseDMY) none

structure ExtractedDates where
  publication_date : Option Date
  effective_date : Option Date
  expiry_date : Option Date
  is_revoked : Bool
deriving DecidableEq

/-- `TemporalExtractor.extract_dates`. -/
def extract_dates (text : String) (publicationDate : Option Date) :
    ExtractedDates :=
  let eff := extract_effective_date text publicationDate
  let revoked := check_revocation text
  let expiry := if revoked then extract_revocation_date text else none
  let eff2 :=
    match eff with
    | some d => some d
    | none => publicationDate.map (fun p => p.addDays config.DEFAULT_EFFECTIVE_DAYS)
  ⟨publicationDate, eff2, expiry, revoked⟩

end TemporalExtractor

/-! ## Vector store search (`database/qdrant_manager.py`, `search/vector_search.py`)

A search result is a scored point; the candidate list passed to `search`
abstracts the vector index's similarity ranking.  `limit or config.SEARCH_TOP_K`
and `score_threshold or config.SEARCH_SCORE_THRESHOLD` follow Python
truthiness: both `None` and zero fall back to the configured default. -/

structure ScoredPoint where
  id : String
  score : Rat
  payload : Payload
deriving DecidableEq

/-- Python `x or default` for an optional integer (`None` and `0` are falsy). -/
def pyOrNat (x : Option Nat) (dflt : Nat) : Nat :=
  match x with
  | some n => if n = 0 then dflt else n
  | none => dflt

/-- Python `x or default` for an optional score (`None` and `0.0` are falsy). -/
def pyOrRat (x : Option Rat) (dflt : Rat) : Rat :=
  match x with
  | some q => if q = 0 then dflt else q
  | none => dflt

namespace QdrantManager

/-- `QdrantManager.search`: resolve defaults, then return up to `limit`
candidates with score at or above the threshold that satisfy the filter.
A `None` filter is the always-true filter. -/
def search (candidates : List ScoredPoint) (limit : Option Nat)
    (score_threshold : Option Rat) (filt : Payload → Bool) : List ScoredPoint :=
  let lim := pyOrNat limit config.SEARCH_TOP_K
  let th := pyOrRat score_threshold config.SEARCH_SCORE_THRESHOLD
  (candidates.filter (fun sp => decide (th ≤ sp.score) && filt sp.payload)).take lim

/-- The temporal filter built in `QdrantManager.search_temporal`:
`status = active`, `effective_date ≤ target` (a missing field fails a range
condition), and `expiry_date ≥ target` or `expiry_date` null. -/
def temporal_filter_matches (targetDate : Date) (p : Payload) : Bool :=
  p.status == "active"
  && (match p.effective_date with | some e => Date.ble e targetDate | none => false)
  && (match p.expiry_date with | some x => Date.ble targetDate x | none => true)

/-- `QdrantManager.search_temporal`: delegate to `search` with the temporal
filter; `score_threshold` is not passed, so the configured default applies. -/
def search_temporal (candidates : List ScoredPoint) (targetDate : Date)
    (limit : Option Nat) : List ScoredPoint :=
  search candidates limit none (temporal_filter_matches targetDate)

/-- `QdrantManager.search`'s `try/except` wrapper: a client exception is
caught, logged and turned into an empty result list. -/
def search_catching (clientOutcome : Except String (List ScoredPoint)) :
    List ScoredPoint :=
  match clientOutcome with
  | Except.ok results => results
  | Except.error _ => []

end QdrantManager

/-! ## Keyed view of the collection and `upsert_points`

Qdrant upsert overwrites by point id; for the upsert-side claims the
collection is a map from id to payload. -/

abbrev KeyedStore := String → Option Payload

def KeyedStore.empty : KeyedStore := fun _ => none

namespace QdrantManager

/-- Upsert of a single point: overwrite by id. -/
def upsert_point (s : KeyedStore) (pt : Point) : KeyedStore :=
  fun k => if k = pt.id then some pt.payload else s k

/-- The batch slicing `points[i:i + batch_size]` of `upsert_points`
(fuel-based; the fuel is the list length at the top call). -/
def chunksOfAux (n : Nat) : Nat → List α → List (List α)
  | 0, _ => []
  | _, [] => []
  | fuel + 1, l => l.take n :: chunksOfAux n fuel (l.drop n)

def chunksOf (n : Nat) (l : List α) : List (List α) :=
  chunksOfAux n l.length l

/-- The upload loop of `upsert_points`: batches are sent in order; the first
client failure aborts the loop (the exception is caught) and the call
returns `False`, leaving the batches already sent applied. -/
def upsert_batches (clientOk : List Point → Bool) (s : KeyedStore) :
    List (List Point) → KeyedStore × Bool
  | [] => (s, true)
  | b :: rest =>
      if clientOk b then upsert_batches clientOk (b.foldl upsert_point s) rest
      else (s, false)

/-- `QdrantManager.upsert_points`. -/
def upsert_points (clientOk : List Point → Bool) (s : KeyedStore)
    (points : List Point) (batchSize : Nat) : KeyedStore × Bool :=
  upsert_batches clientOk s (chunksOf batchSize points)

end QdrantManager

/-! ## Versioning (`database/versioning.py`)

`supersede_regulation` scrolls the collection for the old version's points,
rewrites each one's payload in place via `set_payload`, and upserts the new
version with a `supersedes_version` back-link.  For the scroll the collection
is viewed as the list of its points. -/

namespace VersionManager

/-- `VersionManager._find_regulation_points`: filter by `regulation_id` and,
when the version argument is truthy (nonempty), by `version`. -/
def find_regulation_points (store : List Point) (rid ver : String) : List Point :=
  store.filter (fun p =>
    p.payload.regulation_id == rid && (ver == "" || p.payload.version == some ver))

/-- The payload rewrite applied to each old point. -/
def superseded_payload (newEff : Option Date) (newVer : Option String)
    (p : Payload) : Payload :=
  { p with status := "superseded", expiry_date := newEff,
           superseded_by_version := newVer }

/-- `client.set_payload`: replace the payload of the point with the given id. -/
def set_payload (store : List Point) (pid : String) (pl : Payload) : List Point :=
  store.map (fun q => if q.id == pid then { q with payload := pl } else q)

/-- Upsert into the point-list view: overwrite by id (remove any point with
the same id, then add). -/
def upsert_point_list (store : List Point) (p : Point) : List Point :=
  (store.filter (fun q => q.id ≠ p.id)) ++ [p]

/-- `VersionManager.supersede_regulation`. -/
def supersede_regulation (store : List Point) (rid oldVer : String)
    (newPoint : Point) : List Point × Bool :=
  let olds := find_regulation_points store rid oldVer
  if olds.isEmpty then (store, false)
  else
    let newEff := newPoint.payload.effective_date
    let newVer := newPoint.payload.version
    let store1 := olds.foldl
      (fun s p => set_payload s p.id (superseded_payload newEff newVer p.payload))
      store
    let newPoint1 := { newPoint with
      payload := { newPoint.payload with supersedes_version := some oldVer } }
    (upsert_point_list store1 newPoint1, true)

end VersionManager

/-! ## LexML article parsing (`parsers/lexml_parser.py`)

`_parse_article` combines the XML-extracted label/caption/paragraph text
(here given as the already-joined `fullText`), invokes the temporal
extractor with the document's publication date, and assembles the article
payload; `status` is `superseded` exactly when the extractor reports
`is_revoked`. -/

namespace LexMLParser

/-- The payload assembly of `LexMLParser._parse_article` (the lxml tree
traversal that produces `full_text` is the library part; its result is the
`fullText` argument). -/
def parse_article (leiNumber articleId fullText : String)
    (publicationDate : Option Date) : Payload :=
  let t := TemporalExtractor.extract_dates fullText publicationDate
  { regulation_id := leiNumber ++ "-" ++ articleId
    status := if t.is_revoked then "superseded" else "active"
    effective_date := t.effective_date
    expiry_date := t.expiry_date
    text := fullText }

end LexMLParser

/-! ## Ingestion (`pipeline/ingestion.py`)

`ingest_lexml` parses, chunks, embeds and upserts.  Parsing and embedding
are deterministic functions of their inputs (`parse` abstracts
`LexMLParser.parse_xml` on the file's bytes, `embed` the embedding model);
point ids are the chunks' `regulation_id`s. -/

namespace IngestionPipeline

def points_of (embed : String → List Rat) (chunks : List Payload) : List Point :=
  chunks.map (fun c => { id := c.regulation_id, vector := embed c.text, payload := c })

def chunks_of_articles (articles : List Payload) : List Payload :=
  articles.flatMap (ArticleChunker.chunk config.CHUNK_MAX_TOKENS config.CHUNK_OVERLAP)

/-- `IngestionPipeline.ingest_lexml` restricted to one input file, with the
store passed explicitly (the upload client always succeeds here). -/
def ingest_lexml (parse : String → List Payload) (embed : String → List Rat)
    (store : KeyedStore) (fileBytes : String) : KeyedStore :=
  (QdrantManager.upsert_points (fun _ => true) store
    (points_of embed (chunks_of_articles (parse fileBytes))) 100).1

/-- The ids of the points an input file produces. -/
def ids_of (parse : String → List Payload) (fileBytes : String) : List String :=
  (chunks_of_articles (parse fileBytes)).map (fun c => c.regulation_id)

end IngestionPipeline

/-! ## Search wrappers and the RAG pipeline (`search/vector_search.py`, `search/rag.py`) -/

namespace VectorSearch

/-- `VectorSearch.search`: resolves the same Python-truthy defaults before
delegating to the store adapter (a `None` filter is the always-true filter). -/
def search (candidates : List ScoredPoint) (limit : Option Nat)
    (score_threshold : Option Rat) (filt : Payload → Bool) : List ScoredPoint :=
  QdrantManager.search candidates
    (some (pyOrNat limit config.SEARCH_TOP_K))
    (some (pyOrRat score_threshold config.SEARCH_SCORE_THRESHOLD))
    filt

/-- `VectorSearch.search_temporal`. -/
def search_temporal (candidates : List ScoredPoint) (targetDate : Date)
    (limit : Option Nat) : List ScoredPoint :=
  QdrantManager.search_temporal candidates targetDate
    (some (pyOrNat limit config.SEARCH_TOP_K))

end VectorSearch

/-- The RAG response dictionary of `RAGPipeline.query`. -/
structure RAGResponse where
  answer : String
  sources : List ScoredPoint
  search_time_ms : Nat
  llm_time_ms : Nat
  total_time_ms : Nat
deriving DecidableEq

namespace RAGPipeline

def cannedAnswer : String :=
  "Não encontrei informações relevantes nos documentos disponíveis."

/-- The post-retrieval part of `RAGPipeline.query`: `results` is what the
retrieval step returned; `llm` is the generation oracle; the wall-clock
readings are abstract parameters. -/
def respond (results : List ScoredPoint) (llm : String → List ScoredPoint → String)
    (question : String) (returnSources : Bool)
    (searchMs llmMs extraMs : Nat) : RAGResponse :=
  if results.isEmpty then
    { answer := cannedAnswer
      sources := []
      search_time_ms := searchMs
      llm_time_ms := 0
      total_time_ms := searchMs }
  else
    { answer := llm question results
      sources := if returnSources then results else []
      search_time_ms := searchMs
      llm_time_ms := llmMs
      total_time_ms := searchMs + llmMs + extraMs }

/-- `RAGPipeline.query` with a target date: retrieve via the temporal
search, then respond. -/
def query_with_date (candidates : List ScoredPoint)
    (llm : String → List ScoredPoint → String) (question : String)
    (targetDate : Date) (limit : Nat) (returnSources : Bool)
    (searchMs llmMs extraMs : Nat) : RAGResponse :=
  respond (VectorSearch.search_temporal candidates targetDate (some limit))
    llm question returnSources searchMs llmMs extraMs

end RAGPipeline

/-! ## ICA filename metadata (`ICA_Extractor/ICAJSONGenerator.py`)

`process_documents` unpacks the underscore-separated stem of the input file
name into number, effective date (`ddMMyyyy`), expiry date and category,
reslices nonempty dates to `dd-MM-yyyy`, and falls back to
`extrair_data_vigencia` (a text scan) only when the filename's effective
date is empty; the expiry date has no text fallback. -/

namespace ICAJSONGenerator

/-- `separar_caminho_arquivo` (on the file's base name): strip the
extension, split on the separator. -/
def splitOnChar (sep : Char) : List Char → List Char → List String
  | [], acc => [String.mk acc.reverse]
  | c :: cs, acc =>
      if c == sep then String.mk acc.reverse :: splitOnChar sep cs []
      else splitOnChar sep cs (c :: acc)

def separar_caminho_arquivo (fileName : String) (sep : Char) : List String :=
  splitOnChar sep ((splitOnChar '.' fileName.data []).headD "").data []

structure ICAFields where
  numero_ica : String
  data_vigencia_inicio : String
  data_vigencia_fim : String
  categoria : String
deriving DecidableEq

/-- The 4-way unpacking in `process_documents`; any other arity raises in
the source. -/
def parse_filename_fields (fileName : String) : Option ICAFields :=
  match separar_caminho_arquivo fileName '_' with
  | [n, di, df, c] => some ⟨n, di, df, c⟩
  | _ => none

/-- The `ddMMyyyy → dd-MM-yyyy` reslicing applied to nonempty date fields. -/
def reformat_ddmmyyyy (s : String) : String :=
  String.mk (s.data.take 2) ++ "-" ++ String.mk ((s.data.drop 2).take 2)
    ++ "-" ++ String.mk (s.data.drop 4)

/-- The resolved effective date: the filename field when nonempty (after
reslicing), otherwise whatever `extrair_data_vigencia` finds in the text. -/
def resolved_vigencia_inicio (fromFilename : String)
    (textExtracted : Option String) : Option String :=
  if fromFilename ≠ "" then some (reformat_ddmmyyyy fromFilename)
  else textExtracted

/-- The resolved expiry date: the filename field when nonempty (after
reslicing), otherwise left empty. -/
def resolved_vigencia_fim (fromFilename : String) : String :=
  if fromFilename ≠ "" then reformat_ddmmyyyy fromFilename else fromFilename

end ICAJSONGenerator

/-! ## Helper lemmas -/

theorem Date.ble_refl (d : Date) : Date.ble d d = true := by
  simp [Date.ble]

/-- Unpacking membership in `QdrantManager.search`: a returned hit is a
candidate, meets the resolved score threshold and satisfies the filter. -/
theorem search_mem_elim {candidates : List ScoredPoint} {limit : Option Nat}
    {th : Option Rat} {filt : Payload → Bool} {sp : ScoredPoint}
    (h : sp ∈ QdrantManager.search candidates limit th filt) :
    sp ∈ candidates
    ∧ pyOrRat th config.SEARCH_SCORE_THRESHOLD ≤ sp.score
    ∧ filt sp.payload = true := by
  unfold QdrantManager.search at h
  have h1 := List.mem_filter.mp (List.mem_of_mem_take h)
  have h2 := Bool.and_eq_true _ _ |>.mp h1.2
  exact ⟨h1.1, of_decide_eq_true h2.1, h2.2⟩

/-- Every chunk produced by the chunker's loop keeps the article's `status`,
`effective_date` and `expiry_date` (only `text`, `chunk_index` and
`regulation_id` are rewritten). -/
theorem chunkLoop_preserves (a : Payload) (maxT : Nat) :
    ∀ (paras : List String) (chunks : List Payload) (current : List String)
      (size : Nat) (c : Payload),
      (∀ x ∈ chunks, x.status = a.status ∧ x.effective_date = a.effective_date
        ∧ x.expiry_date = a.expiry_date) →
      c ∈ ArticleChunker.chunkLoop a maxT paras chunks current size →
      c.status = a.status ∧ c.effective_date = a.effective_date
        ∧ c.expiry_date = a.expiry_date := by
  intro paras
  induction paras with
  | nil =>
      intro chunks current size c hinv hc
      unfold ArticleChunker.chunkLoop at hc
      split at hc
      · rcases List.mem_append.mp hc with hx | hx
        · exact hinv c hx
        · rcases List.mem_singleton.mp hx with rfl
          exact ⟨rfl, rfl, rfl⟩
      · exact hinv c hc
  | cons para rest ih =>
      intro chunks current size c hinv hc
      unfold ArticleChunker.chunkLoop at hc
      dsimp only [] at hc
      split at hc
      · refine ih _ _ _ c ?_ hc
        intro x hx
        rcases List.mem_append.mp hx with hx | hx
        · exact hinv x hx
        · rcases List.mem_singleton.mp hx with rfl
          exact ⟨rfl, rfl, rfl⟩
      · exact ih _ _ _ c hinv hc

theorem chunk_preserves {maxT ov : Nat} {a c : Payload}
    (h : c ∈ ArticleChunker.chunk maxT ov a) :
    c.status = a.status ∧ c.effective_date = a.effective_date
      ∧ c.expiry_date = a.expiry_date := by
  unfold ArticleChunker.chunk at h
  split at h
  · rcases List.mem_singleton.mp h with rfl
    exact ⟨rfl, rfl, rfl⟩
  · exact chunkLoop_preserves a maxT _ [] [] 0 c (by intro x hx; cases hx) h

/-! ## Concrete sample data used by witnesses -/

/-- An active payload effective from 2024-01-01 with no expiry. -/
def samplePayloadActive : Payload :=
  { regulation_id := "lei-8666-art1", status := "active",
    version := some "v1", effective_date := some ⟨2024, 1, 1⟩ }

/-- A high-scoring candidate point. -/
def samplePointHigh : ScoredPoint :=
  { id := "pt1", score := mkRat 9 10, payload := samplePayloadActive }

/-- A low-scoring candidate point (below `SEARCH_SCORE_THRESHOLD`). -/
def samplePointLow : ScoredPoint :=
  { id := "pt2", score := mkRat 1 2, payload := samplePayloadActive }

/-- A high-scoring point whose effective date equals the example target date
2024-05-05. -/
def samplePointBoundary : ScoredPoint :=
  { id := "pt3", score := mkRat 9 10,
    payload := { regulation_id := "lei-8666-art2", status := "active",
                 effective_date := some ⟨2024, 5, 5⟩ } }

/-! ## Claim theorems -/

set_option maxRecDepth 8000

/-- Claim C2 (code bug witness): on the article `"a b c\n\nd e f"` with
`max_tokens = 3` and `overlap = 1` the chunker emits exactly `"a b c"` and
`"d e f"`: the second chunk does not begin with the last `OVERLAP` tokens of
its predecessor (it would have to start with `"c"`), because the loop never
consults the stored `overlap` even though the source's own comment announces
"Start new chunk with overlap". -/
theorem C2_chunker_emits_no_overlap :
    (ArticleChunker.chunk 3 1
      { regulation_id := "lei-1-art1", status := "active",
        text := "a b c\n\nd e f" }).map (fun c => c.text) = ["a b c", "d e f"]
    ∧ chunkOverlapSpecHolds 1
        (ArticleChunker.chunk 3 1
          { regulation_id := "lei-1-art1", status := "active",
            text := "a b c\n\nd e f" }) = false := by
  exact ⟨by decide, by decide⟩

/-- Claim C3 (counterexample): for a document published 2024-03-10 whose only
vigor clause is "entra em vigor na data de sua publicação", the extractor
returns `effective_date = 2024-06-08` (publication + DEFAULT_EFFECTIVE_DAYS),
not the publication date 2024-03-10 the claim demands. -/
theorem C3_counterexample :
    (TemporalExtractor.extract_dates
        "Esta lei entra em vigor na data de sua publicação."
        (some ⟨2024, 3, 10⟩)).effective_date = some ⟨2024, 6, 8⟩
    ∧ (⟨2024, 6, 8⟩ : Date) ≠ ⟨2024, 3, 10⟩ := by
  exact ⟨by decide, by decide⟩

/-- Claim C3 (amended): when no dated effective pattern yields a date and a
publication date is provided, the extracted effective date is the publication
date plus `DEFAULT_EFFECTIVE_DAYS` (90) — both when the publication-referent
pattern matches and when the generic fallback applies. -/
theorem C3_effective_date_is_publication_plus_default (text : String) (pub : Date)
    (h : TemporalExtractor.effective_date_from_patterns text.data = none) :
    (TemporalExtractor.extract_dates text (some pub)).effective_date
      = some (pub.addDays config.DEFAULT_EFFECTIVE_DAYS) := by
  have e1 : (TemporalExtractor.extract_dates text (some pub)).effective_date
      = match TemporalExtractor.extract_effective_date text (some pub) with
        | some d => some d
        | none => some (pub.addDays config.DEFAULT_EFFECTIVE_DAYS) := rfl
  have e2 : TemporalExtractor.extract_effective_date text (some pub)
      = if (searchPos TemporalExtractor.effPattern5At text.data).isSome
          then some (pub.addDays config.DEFAULT_EFFECTIVE_DAYS) else none := by
    simp only [TemporalExtractor.extract_effective_date, h]
    cases hc2 : (searchPos TemporalExtractor.effPattern5At text.data).isSome <;>
      simp [hc2]
  rewrite [e1, e2]
  cases hc : (searchPos TemporalExtractor.effPattern5At text.data).isSome <;>
    simp [hc]

/-- Witness for C3's amended theorem at the counterexample input. -/
theorem C3_effective_date_witness :
    TemporalExtractor.effective_date_from_patterns
        "Esta lei entra em vigor na data de sua publicação.".data = none
    ∧ (TemporalExtractor.extract_dates
        "Esta lei entra em vigor na data de sua publicação."
        (some ⟨2024, 3, 10⟩)).effective_date
      = some (Date.addDays ⟨2024, 3, 10⟩ config.DEFAULT_EFFECTIVE_DAYS) :=
  ⟨by decide,
   C3_effective_date_is_publication_plus_default
     "Esta lei entra em vigor na data de sua publicação." ⟨2024, 3, 10⟩ (by decide)⟩

/-- Claim C10: passing `limit = 0` or `score_threshold = 0.0` to the
vector-store search (directly or through the `VectorSearch` wrapper) silently
substitutes the configured defaults, so every hit of such a search still
meets `SEARCH_SCORE_THRESHOLD`: a zero threshold cannot request an
unthresholded search. -/
theorem C10_zero_arguments_fall_back_to_defaults (candidates : List ScoredPoint)
    (filt : Payload → Bool) :
    QdrantManager.search candidates (some 0) (some 0) filt
      = QdrantManager.search candidates none none filt
    ∧ VectorSearch.search candidates (some 0) (some 0) filt
      = VectorSearch.search candidates none none filt
    ∧ ∀ sp ∈ QdrantManager.search candidates (some 0) (some 0) filt,
        config.SEARCH_SCORE_THRESHOLD ≤ sp.score := by
  refine ⟨rfl, rfl, fun sp hsp => ?_⟩
  exact (search_mem_elim hsp).2.1

/-- Witness for C10 at a concrete one-point candidate list. -/
theorem C10_zero_arguments_witness :
    samplePointHigh ∈ QdrantManager.search [samplePointHigh]
        (some 0) (some 0) (fun _ => true)
    ∧ config.SEARCH_SCORE_THRESHOLD ≤ samplePointHigh.score :=
  ⟨by decide,
   (C10_zero_arguments_fall_back_to_defaults [samplePointHigh]
       (fun _ => true)).2.2 samplePointHigh (by decide)⟩

/-- Claim C8 (counterexample): a filename with an empty effective-date field
(`ICA63-19___DEFESA.pdf`) parses fine, but the resolved effective date is
not left empty — the generator falls back to the text-extracted date. -/
theorem C8_counterexample :
    ICAJSONGenerator.parse_filename_fields "ICA63-19___DEFESA.pdf"
      = some ⟨"ICA63-19", "", "", "DEFESA"⟩
    ∧ ICAJSONGenerator.resolved_vigencia_inicio "" (some "10-03-2024")
        = some "10-03-2024"
    ∧ (some "10-03-2024" : Option String) ≠ some ""
    ∧ (some "10-03-2024" : Option String) ≠ none := by
  exact ⟨by decide, by decide, by decide, by decide⟩

/-- Claim C8 (amended): filenames `NUMBER_ddMMyyyy_ddMMyyyy_CATEGORY` are
unpacked into number, effective date, expiry date and category; nonempty
filename dates are resliced to `dd-MM-yyyy` and take priority over the
text-extracted date; an empty expiry field stays empty, while an empty
effective field is filled from the document text. -/
theorem C8_filename_metadata (di : String) (textExtracted : Option String)
    (h : di ≠ "") :
    ICAJSONGenerator.parse_filename_fields "ICA100-12_01032024_31122025_TRAFEGO.pdf"
      = some ⟨"ICA100-12", "01032024", "31122025", "TRAFEGO"⟩
    ∧ ICAJSONGenerator.reformat_ddmmyyyy "01032024" = "01-03-2024"
    ∧ ICAJSONGenerator.resolved_vigencia_inicio di textExtracted
        = some (ICAJSONGenerator.reformat_ddmmyyyy di)
    ∧ (∀ te : Option String, ICAJSONGenerator.resolved_vigencia_inicio "" te = te)
    ∧ ICAJSONGenerator.resolved_vigencia_fim "" = "" := by
  refine ⟨by decide, by decide, ?_, fun te => rfl, rfl⟩
  simp [ICAJSONGenerator.resolved_vigencia_inicio, h]

/-- Witness for C8's amended theorem at a concrete nonempty filename date. -/
theorem C8_filename_metadata_witness :
    ("01032024" : String) ≠ ""
    ∧ ICAJSONGenerator.resolved_vigencia_inicio "01032024" (some "99-99-9999")
        = some (ICAJSONGenerator.reformat_ddmmyyyy "01032024") :=
  ⟨by decide,
   (C8_filename_metadata "01032024" (some "99-99-9999") (by decide)).2.2.1⟩

/-- Claim C7 (counterexample): a client error during search is caught and
reported as the empty result list — indistinguishable from a genuinely empty
result — and an upsert whose second batch fails still leaves the first batch
written (a partial write) while merely returning `False`. -/
theorem C7_counterexample :
    QdrantManager.search_catching (Except.error "connection refused") = []
    ∧ QdrantManager.search_catching (Except.ok []) = []
    ∧ (QdrantManager.upsert_points
          (fun b => b.all (fun p => p.id == "old1"))
          KeyedStore.empty
          [{ id := "old1", payload := samplePayloadActive },
           { id := "new1", payload := samplePayloadActive }] 1).2 = false
    ∧ (QdrantManager.upsert_points
          (fun b => b.all (fun p => p.id == "old1"))
          KeyedStore.empty
          [{ id := "old1", payload := samplePayloadActive },
           { id := "new1", payload := samplePayloadActive }] 1).1 "old1"
        = some samplePayloadActive := by
  exact ⟨rfl, rfl, rfl, rfl⟩

/-- Claim C7 (amended): store errors do not propagate: a failed search is
returned as the empty list, and a failed upsert returns `False` with every
batch sent before the failure still applied. -/
theorem C7_store_errors_are_swallowed (e : String) (s : KeyedStore)
    (b1 b2 : List Point) (clientOk : List Point → Bool)
    (h1 : clientOk b1 = true) (h2 : clientOk b2 = false) :
    QdrantManager.search_catching (Except.error e) = []
    ∧ QdrantManager.upsert_batches clientOk s [b1, b2]
        = (b1.foldl QdrantManager.upsert_point s, false) := by
  refine ⟨rfl, ?_⟩
  simp [QdrantManager.upsert_batches, h1, h2]

/-- Witness for C7's amended theorem at a concrete failing second batch. -/
theorem C7_store_errors_witness :
    QdrantManager.search_catching (Except.error "boom") = []
    ∧ QdrantManager.upsert_batches
        (fun b => b.all (fun p => p.id == "old1")) KeyedStore.empty
        [[{ id := "old1", payload := samplePayloadActive }],
         [{ id := "new1", payload := samplePayloadActive }]]
      = ([({ id := "old1", payload := samplePayloadActive } : Point)].foldl
          QdrantManager.upsert_point KeyedStore.empty, false) :=
  C7_store_errors_are_swallowed "boom" KeyedStore.empty
    [{ id := "old1", payload := samplePayloadActive }]
    [{ id := "new1", payload := samplePayloadActive }]
    (fun b => b.all (fun p => p.id == "old1")) (by decide) (by decide)

/-- Claim C6: when the retrieval step of a dated RAG query returns zero hits,
the response is the canned "no information found" answer with empty sources
and `llm_time_ms = 0`, and the response does not depend on the LLM oracle. -/
theorem C6_abstention (candidates : List ScoredPoint)
    (llm llm2 : String → List ScoredPoint → String) (question : String)
    (targetDate : Date) (limit : Nat) (returnSources : Bool)
    (searchMs llmMs extraMs : Nat)
    (h : VectorSearch.search_temporal candidates targetDate (some limit) = []) :
    (RAGPipeline.query_with_date candidates llm question targetDate limit
        returnSources searchMs llmMs extraMs).answer = RAGPipeline.cannedAnswer
    ∧ (RAGPipeline.query_with_date candidates llm question targetDate limit
        returnSources searchMs llmMs extraMs).sources = []
    ∧ (RAGPipeline.query_with_date candidates llm question targetDate limit
        returnSources searchMs llmMs extraMs).llm_time_ms = 0
    ∧ RAGPipeline.query_with_date candidates llm question targetDate limit
        returnSources searchMs llmMs extraMs
      = RAGPipeline.query_with_date candidates llm2 question targetDate limit
        returnSources searchMs llmMs extraMs := by
  unfold RAGPipeline.query_with_date RAGPipeline.respond
  rw [h]
  exact ⟨rfl, rfl, rfl, rfl⟩

/-- Witness for C6: a single candidate below the score threshold retrieves
nothing on the target date, so the pipeline abstains. -/
theorem C6_abstention_witness :
    VectorSearch.search_temporal [samplePointLow] ⟨2024, 5, 5⟩ (some 5) = []
    ∧ (RAGPipeline.query_with_date [samplePointLow] (fun _ _ => "llm answer")
        "qual é o melhor restaurante de Brasília" ⟨2024, 5, 5⟩ 5 true 3 0 0).answer
      = RAGPipeline.cannedAnswer :=
  ⟨by decide,
   (C6_abstention [samplePointLow] (fun _ _ => "llm answer") (fun _ _ => "resposta alternativa")
      "qual é o melhor restaurante de Brasília" ⟨2024, 5, 5⟩ 5 true 3 0 0
      (by decide)).1⟩

/-- Claim C1: every hit of a temporal search has `status = active`, an
effective date at or before the target date, and either no expiry date or
one at or after the target date; payloads with boundary dates (effective
date equal to the target, or expiry date equal to the target) pass the
filter, and candidates failing the filter are excluded outright from the
result. -/
theorem C1_temporal_search_invariant (candidates : List ScoredPoint)
    (targetDate : Date) (limit : Option Nat) (hit : ScoredPoint)
    (hmem : hit ∈ QdrantManager.search_temporal candidates targetDate limit) :
    (hit.payload.status = "active"
      ∧ (∃ e, hit.payload.effective_date = some e ∧ Date.ble e targetDate = true)
      ∧ (hit.payload.expiry_date = none
          ∨ ∃ x, hit.payload.expiry_date = some x ∧ Date.ble targetDate x = true))
    ∧ (∀ p : Payload, p.status = "active" → p.effective_date = some targetDate →
        p.expiry_date = none →
        QdrantManager.temporal_filter_matches targetDate p = true)
    ∧ (∀ p : Payload, p.status = "active" →
        (∃ e, p.effective_date = some e ∧ Date.ble e targetDate = true) →
        p.expiry_date = some targetDate →
        QdrantManager.temporal_filter_matches targetDate p = true)
    ∧ (∀ sp ∈ candidates,
        QdrantManager.temporal_filter_matches targetDate sp.payload = false →
        sp ∉ QdrantManager.search_temporal candidates targetDate limit) := by
  refine ⟨?_, ?_, ?_, ?_⟩
  · have hfilt := (search_mem_elim hmem).2.2
    unfold QdrantManager.temporal_filter_matches at hfilt
    have h1 := Bool.and_eq_true _ _ |>.mp hfilt
    have h2 := Bool.and_eq_true _ _ |>.mp h1.1
    refine ⟨eq_of_beq h2.1, ?_, ?_⟩
    · cases heff : hit.payload.effective_date with
      | none => rw [heff] at h2; exact absurd h2.2 (by simp)
      | some e => rw [heff] at h2; exact ⟨e, rfl, h2.2⟩
    · cases hexp : hit.payload.expiry_date with
      | none => exact Or.inl rfl
      | some x =>
          rw [hexp] at h1
          exact Or.inr ⟨x, rfl, h1.2⟩
  · intro p hstat heff hexp
    unfold QdrantManager.temporal_filter_matches
    rw [hstat, heff, hexp]
    simp [Date.ble_refl]
  · intro p hstat heff hexp
    rcases heff with ⟨e, he, hle⟩
    unfold QdrantManager.temporal_filter_matches
    rw [hstat, he, hexp]
    simp [hle, Date.ble_refl]
  · intro sp _ hfalse hmem2
    have := (search_mem_elim hmem2).2.2
    rw [hfalse] at this
    cases this

/-- Witness for C1: a concrete temporal search returning one active hit whose
effective date equals the target date. -/
theorem C1_temporal_search_witness :
    samplePointBoundary ∈ QdrantManager.search_temporal [samplePointBoundary]
        ⟨2024, 5, 5⟩ (some 5)
    ∧ samplePointBoundary.payload.status = "active" :=
  ⟨by decide,
   (C1_temporal_search_invariant [samplePointBoundary] ⟨2024, 5, 5⟩ (some 5)
      samplePointBoundary (by decide)).1.1⟩

/-- Claim C9: an article whose text matches a revocation pattern — e.g. one
that merely revokes a different law — is emitted by the LexML parser with
`status = superseded` already at parse time; every chunk the chunker derives
from it keeps that status, fails the temporal filter for every target date,
and is never returned by a temporal search. -/
theorem C9_revoking_article_parsed_superseded (leiNumber articleId fullText : String)
    (pub : Option Date) (maxT ov : Nat) (targetDate : Date)
    (h : TemporalExtractor.check_revocation fullText = true) :
    (LexMLParser.parse_article leiNumber articleId fullText pub).status = "superseded"
    ∧ ∀ c ∈ ArticleChunker.chunk maxT ov
          (LexMLParser.parse_article leiNumber articleId fullText pub),
        c.status = "superseded"
        ∧ QdrantManager.temporal_filter_matches targetDate c = false
        ∧ ∀ (cands : List ScoredPoint) (lim : Option Nat) (sp : ScoredPoint),
            sp.payload = c →
            sp ∉ QdrantManager.search_temporal cands targetDate lim := by
  have hstat : (LexMLParser.parse_article leiNumber articleId fullText pub).status
      = "superseded" := by
    unfold LexMLParser.parse_article
    simp [TemporalExtractor.extract_dates, h]
  refine ⟨hstat, fun c hc => ?_⟩
  have hcs := (chunk_preserves hc).1.trans hstat
  have hfilt : QdrantManager.temporal_filter_matches targetDate c = false := by
    have hne : (("superseded" : String) == "active") = false := by decide
    unfold QdrantManager.temporal_filter_matches
    rw [hcs, hne, Bool.false_and, Bool.false_and]
  refine ⟨hcs, hfilt, fun cands lim sp hsp hmem => ?_⟩
  have := (search_mem_elim hmem).2.2
  rw [hsp, hfilt] at this
  cases this

/-- Witness for C9: a concrete article that revokes a different law. -/
theorem C9_revoking_article_witness :
    TemporalExtractor.check_revocation
        "Caput: Fica revogada a Lei nº 12.345." = true
    ∧ (LexMLParser.parse_article "54321" "art1"
        "Caput: Fica revogada a Lei nº 12.345." (some ⟨2024, 1, 10⟩)).status
      = "superseded" :=
  ⟨by decide,
   (C9_revoking_article_parsed_superseded "54321" "art1"
      "Caput: Fica revogada a Lei nº 12.345." (some ⟨2024, 1, 10⟩)
      512 50 ⟨2024, 5, 5⟩ (by decide)).1⟩

/-! ## Upsert algebra for C5 -/

theorem upsert_foldl_apply (pts : List Point) (s : KeyedStore) (k : String) :
    (pts.foldl QdrantManager.upsert_point s) k
      = match pts.reverse.find? (fun p => p.id == k) with
        | some p => some p.payload
        | none => s k := by
  induction pts generalizing s with
  | nil => rfl
  | cons p rest ih =>
      rw [List.foldl_cons, ih]
      rw [List.reverse_cons, List.find?_append]
      cases hfind : rest.reverse.find? (fun q => q.id == k) with
      | some q => rfl
      | none =>
          simp only [Option.none_or, List.find?_cons, List.find?_nil]
          unfold QdrantManager.upsert_point
          by_cases hpk : p.id = k
          · simp [hpk]
          · have hbeq : (p.id == k) = false := beq_eq_false_iff_ne.mpr hpk
            simp [hbeq, Ne.symm hpk]

theorem upsert_batches_all_ok (batches : List (List Point)) (s : KeyedStore) :
    QdrantManager.upsert_batches (fun _ => true) s batches
      = (batches.foldl (fun st b => b.foldl QdrantManager.upsert_point st) s, true) := by
  induction batches generalizing s with
  | nil => rfl
  | cons b rest ih => simp [QdrantManager.upsert_batches, ih]

theorem chunksOfAux_flatten (n : Nat) (hn : 0 < n) :
    ∀ (fuel : Nat) (l : List Point), l.length ≤ fuel →
      (QdrantManager.chunksOfAux n fuel l).flatten = l := by
  intro fuel
  induction fuel with
  | zero =>
      intro l hl
      rw [Nat.le_zero] at hl
      rw [List.length_eq_zero] at hl
      subst hl
      rfl
  | succ fuel ih =>
      intro l hl
      cases l with
      | nil => rfl
      | cons x xs =>
          have hstep : QdrantManager.chunksOfAux n (fuel + 1) (x :: xs)
              = (x :: xs).take n
                  :: QdrantManager.chunksOfAux n fuel ((x :: xs).drop n) := rfl
          rw [hstep, List.flatten_cons, ih]
          · exact List.take_append_drop n (x :: xs)
          · rw [List.length_drop]
            have h2 : (x :: xs).length - n ≤ (x :: xs).length - 1 :=
              Nat.sub_le_sub_left hn _
            have h3 : (x :: xs).length - 1 ≤ fuel := by
              simp only [List.length_cons, Nat.add_sub_cancel]
              exact Nat.le_of_succ_le_succ hl
            exact Nat.le_trans h2 h3

theorem chunksOf_flatten (n : Nat) (hn : 0 < n) (l : List Point) :
    (QdrantManager.chunksOf n l).flatten = l :=
  chunksOfAux_flatten n hn l.length l (Nat.le_refl _)

theorem foldl_over_flatten (f : KeyedStore → Point → KeyedStore)
    (batches : List (List Point)) (s : KeyedStore) :
    batches.flatten.foldl f s = batches.foldl (fun st b => b.foldl f st) s := by
  induction batches generalizing s with
  | nil => rfl
  | cons b rest ih => simp [List.foldl_append, ih]

/-- With an always-successful client, `upsert_points` is the plain left fold
of single-point upserts, and reports success. -/
theorem upsert_points_all_ok (s : KeyedStore) (pts : List Point)
    (batchSize : Nat) (h : 0 < batchSize) :
    QdrantManager.upsert_points (fun _ => true) s pts batchSize
      = (pts.foldl QdrantManager.upsert_point s, true) := by
  unfold QdrantManager.upsert_points
  rw [upsert_batches_all_ok, ← foldl_over_flatten, chunksOf_flatten batchSize h]

theorem upsert_foldl_idem (pts : List Point) (s : KeyedStore) :
    pts.foldl QdrantManager.upsert_point (pts.foldl QdrantManager.upsert_point s)
      = pts.foldl QdrantManager.upsert_point s := by
  funext k
  rw [upsert_foldl_apply, upsert_foldl_apply]
  cases hfind : pts.reverse.find? (fun p => p.id == k) <;> simp [hfind]

/-- Claim C5: chunk ids are a pure function of the input bytes (the resulting
store state at every produced id is independent of the prior store), and
because upsert overwrites by id, re-ingesting the same file leaves the store
unchanged. -/
theorem C5_reingestion_idempotent (parse : String → List Payload)
    (embed : String → List Rat) (store store2 : KeyedStore) (fileBytes : String) :
    IngestionPipeline.ingest_lexml parse embed
        (IngestionPipeline.ingest_lexml parse embed store fileBytes) fileBytes
      = IngestionPipeline.ingest_lexml parse embed store fileBytes
    ∧ ∀ k, k ∈ IngestionPipeline.ids_of parse fileBytes →
        IngestionPipeline.ingest_lexml parse embed store fileBytes k
          = IngestionPipeline.ingest_lexml parse embed store2 fileBytes k := by
  constructor
  · unfold IngestionPipeline.ingest_lexml
    rw [upsert_points_all_ok _ _ _ (by decide)]
    dsimp only
    rw [upsert_points_all_ok _ _ _ (by decide)]
    dsimp only
    exact upsert_foldl_idem _ _
  · intro k hk
    unfold IngestionPipeline.ingest_lexml
    rw [upsert_points_all_ok store _ _ (by decide),
        upsert_points_all_ok store2 _ _ (by decide)]
    dsimp only
    rw [upsert_foldl_apply, upsert_foldl_apply]
    cases hfind : (IngestionPipeline.points_of embed
        (IngestionPipeline.chunks_of_articles (parse fileBytes))).reverse.find?
          (fun p => p.id == k) with
    | some p => rfl
    | none =>
        exfalso
        unfold IngestionPipeline.ids_of at hk
        rcases List.mem_map.mp hk with ⟨c, hc, hck⟩
        have hq : ∃ q ∈ IngestionPipeline.points_of embed
            (IngestionPipeline.chunks_of_articles (parse fileBytes)), q.id = k := by
          refine ⟨{ id := c.regulation_id, vector := embed c.text, payload := c },
            List.mem_map_of_mem _ hc, hck⟩
        rcases hq with ⟨q, hqmem, hqk⟩
        have hnone := List.find?_eq_none.mp hfind q (List.mem_reverse.mpr hqmem)
        simp [hqk] at hnone

/-- Witness for C5 at a concrete one-article parse and two different prior
stores. -/
theorem C5_reingestion_witness :
    "lei-8666-art1" ∈ IngestionPipeline.ids_of
        (fun _ => [samplePayloadActive]) "file-bytes"
    ∧ IngestionPipeline.ingest_lexml (fun _ => [samplePayloadActive])
        (fun _ => []) KeyedStore.empty "file-bytes" "lei-8666-art1"
      = IngestionPipeline.ingest_lexml (fun _ => [samplePayloadActive])
        (fun _ => []) (fun _ => some samplePayloadActive) "file-bytes"
        "lei-8666-art1" :=
  ⟨by decide,
   (C5_reingestion_idempotent (fun _ => [samplePayloadActive]) (fun _ => [])
      KeyedStore.empty (fun _ => some samplePayloadActive) "file-bytes").2
      "lei-8666-art1" (by decide)⟩

/-! ## Supersession lemmas for C4 -/

theorem set_payload_mem_of_ne {store : List Point} {pid : String} {pl : Payload}
    {q : Point} (h : q ∈ store) (hne : q.id ≠ pid) :
    q ∈ VersionManager.set_payload store pid pl := by
  unfold VersionManager.set_payload
  have himg := List.mem_map_of_mem
    (fun r => if r.id == pid then { r with payload := pl } else r) h
  have hbeq : (q.id == pid) = false := beq_eq_false_iff_ne.mpr hne
  simpa [hbeq] using himg

theorem set_payload_mem_hit {store : List Point} {pl : Payload}
    {q : Point} (h : q ∈ store) :
    { q with payload := pl } ∈ VersionManager.set_payload store q.id pl := by
  unfold VersionManager.set_payload
  have himg := List.mem_map_of_mem
    (fun r => if r.id == q.id then { r with payload := pl } else r) h
  simpa using himg

theorem fold_set_payload_mem (f : Point → Payload) (olds : List Point) :
    ∀ (store : List Point) (q : Point), q ∈ store →
      (∀ o ∈ olds, o.id ≠ q.id) →
      q ∈ olds.foldl (fun s p => VersionManager.set_payload s p.id (f p)) store := by
  induction olds with
  | nil => intro store q h _; exact h
  | cons o rest ih =>
      intro store q h hne
      rw [List.foldl_cons]
      refine ih _ q ?_ (fun o2 ho2 => hne o2 (List.mem_cons_of_mem o ho2))
      exact set_payload_mem_of_ne h (Ne.symm (hne o (List.mem_cons_self o rest)))

theorem fold_set_payload_hit (f : Point → Payload) (olds : List Point) :
    ∀ (store : List Point) (q : Point), q ∈ olds → q ∈ store →
      (olds.map (fun p => p.id)).Nodup →
      { q with payload := f q }
        ∈ olds.foldl (fun s p => VersionManager.set_payload s p.id (f p)) store := by
  induction olds with
  | nil => intro _ _ h _ _; cases h
  | cons o rest ih =>
      intro store q hmem hstore hnodup
      rw [List.map_cons, List.nodup_cons] at hnodup
      rw [List.foldl_cons]
      rcases List.mem_cons.mp hmem with rfl | hrest
      · refine fold_set_payload_mem f rest _ _ (set_payload_mem_hit hstore) ?_
        intro o2 ho2
        intro heq
        exact hnodup.1 (heq ▸ List.mem_map_of_mem (fun p => p.id) ho2)
      · have hqo : q.id ≠ o.id := by
          intro heq
          exact hnodup.1 (heq ▸ List.mem_map_of_mem (fun p => p.id) hrest)
        exact ih _ q hrest (set_payload_mem_of_ne hstore hqo) hnodup.2

/-- Claim C4: supersession rewrites every point of the old version to
`status = superseded` with `expiry_date` equal to the new version's effective
date and `superseded_by_version` equal to the new version's version tag, and
writes the new version's point with `supersedes_version` equal to the old
version. -/
theorem C4_supersession_links (store : List Point) (rid oldVer : String)
    (newPoint : Point) (p : Point)
    (hnodup : (store.map (fun q => q.id)).Nodup)
    (hp : p ∈ store)
    (hrid : p.payload.regulation_id = rid)
    (hver : p.payload.version = some oldVer)
    (hnid : newPoint.id ≠ p.id) :
    (VersionManager.supersede_regulation store rid oldVer newPoint).2 = true
    ∧ (∃ q ∈ (VersionManager.supersede_regulation store rid oldVer newPoint).1,
        q.id = p.id ∧ q.payload.status = "superseded"
        ∧ q.payload.expiry_date = newPoint.payload.effective_date
        ∧ q.payload.superseded_by_version = newPoint.payload.version)
    ∧ (∃ r ∈ (VersionManager.supersede_regulation store rid oldVer newPoint).1,
        r.id = newPoint.id ∧ r.payload.supersedes_version = some oldVer) := by
  have hpolds : p ∈ VersionManager.find_regulation_points store rid oldVer := by
    unfold VersionManager.find_regulation_points
    refine List.mem_filter.mpr ⟨hp, ?_⟩
    simp [hrid, hver]
  have holdsne : (VersionManager.find_regulation_points store rid oldVer).isEmpty
      = false := by
    rw [List.isEmpty_eq_false]
    exact List.ne_nil_of_mem hpolds
  have hsub : List.Sublist (VersionManager.find_regulation_points store rid oldVer)
      store := List.filter_sublist store
  have holdsnodup :
      ((VersionManager.find_regulation_points store rid oldVer).map
        (fun q => q.id)).Nodup :=
    List.Nodup.sublist (List.Sublist.map (fun q => q.id) hsub) hnodup
  have hq := fold_set_payload_hit
    (fun o => VersionManager.superseded_payload newPoint.payload.effective_date
      newPoint.payload.version o.payload)
    (VersionManager.find_regulation_points store rid oldVer) store p
    hpolds hp holdsnodup
  unfold VersionManager.supersede_regulation
  dsimp only
  rw [if_neg (by rw [holdsne]; exact Bool.false_ne_true)]
  dsimp only
  refine ⟨rfl, ?_, ?_⟩
  · refine ⟨{ p with payload := VersionManager.superseded_payload newPoint.payload.effective_date newPoint.payload.version p.payload }, ?_, rfl, rfl, rfl, rfl⟩
    unfold VersionManager.upsert_point_list
    refine List.mem_append.mpr (Or.inl ?_)
    refine List.mem_filter.mpr ⟨hq, ?_⟩
    simpa using Ne.symm hnid
  · refine ⟨{ newPoint with payload := { newPoint.payload with supersedes_version := some oldVer } }, ?_, rfl, rfl⟩
    unfold VersionManager.upsert_point_list
    exact List.mem_append.mpr (Or.inr (List.mem_singleton.mpr rfl))

/-- Witness for C4 at a concrete one-point store. -/
theorem C4_supersession_witness :
    (VersionManager.supersede_regulation
        [{ id := "old1", payload := samplePayloadActive }]
        "lei-8666-art1" "v1"
        { id := "new1",
          payload := { regulation_id := "lei-8666-art1", status := "active",
                       version := some "v2",
                       effective_date := some ⟨2025, 2, 2⟩ } }).2 = true :=
  (C4_supersession_links
    [{ id := "old1", payload := samplePayloadActive }]
    "lei-8666-art1" "v1"
    { id := "new1",
      payload := { regulation_id := "lei-8666-art1", status := "active",
                   version := some "v2",
                   effective_date := some ⟨2025, 2, 2⟩ } }
    { id := "old1", payload := samplePayloadActive }
    (by decide) (by decide) (by decide) (by decide) (by decide)).1
